import Mathlib

/-!
# udjat-module-dbus: connection lifecycle and per-user session locator

Shallow embedding of `src/library/connection.cc` and
`src/library/connection_factories.cc`.

* C strings are lists of byte values (`Nat`); a pointer into a buffer is the
  suffix of the buffer that starts at the pointed-to byte, so `ptr += n` is
  `List.drop n` and a read through a pointer that left the buffer has no value.
* Calls into libc, libdbus and libsystemd are explicit arguments (their
  results) or explicit state (process credentials, the state of a handle).
* Every operation returns the list of library calls it made, in order.
-/

namespace Udjat

/-! ## C strings -/

/-- ASCII bytes of a literal. -/
def bytes (s : String) : List Nat := s.toList.map Char.toNat

/-- The buffer behind `text.c_str()`: the bytes read from the file followed by
the terminating NUL. -/
def c_str (content : List Nat) : List Nat := content ++ [0]

/-- `strlen(ptr)`: number of bytes before the first NUL; no value when the
buffer ends before a NUL is met. -/
def strlen : List Nat → Option Nat
  | [] => none
  | b :: t => if b = 0 then some 0 else (strlen t).map (· + 1)

/-- The C string at `ptr`: the bytes before the first NUL. -/
def cstring : List Nat → Option (List Nat)
  | [] => none
  | b :: t => if b = 0 then some [] else (cstring t).map (b :: ·)

/-- `strncmp(a, lit, n) == 0`, where `lit` is a string literal given without
its terminator. The comparison stops at the first difference, at a NUL, or
after `n` bytes. -/
def strncmp (a lit : List Nat) : Nat → Option Bool
  | 0 => some true
  | n + 1 =>
    match a with
    | [] => none
    | x :: rest =>
      if x ≠ lit.headD 0 then some false
      else if x = 0 then some true
      else strncmp rest lit.tail n

/-- `strcmp(a, b) != 0` for two NUL-free strings given without terminator. -/
def strcmp (a b : List Nat) : Bool := decide (a ≠ b)

/-! ## Environment-block scan (`connection_factories.cc`, lines 125-169) -/

/-- The literal `"DBUS_SESSION_BUS_ADDRESS"` (24 bytes). -/
def DBUS_SESSION_BUS_ADDRESS : List Nat :=
  [68, 66, 85, 83, 95, 83, 69, 83, 83, 73, 79, 78, 95, 66, 85, 83,
   95, 65, 68, 68, 82, 69, 83, 83]

/-- Outcome of the `for` loop over the environment block. `found ptr` is the
pointer at the matching record when the loop body reaches the attempt;
`absent` is the loop ending on `*ptr == 0`; `fault` is a read outside the
buffer; `outOfFuel` is the model running out of steps. -/
inductive EnvScan where
  | found (ptr : List Nat)
  | absent
  | fault
  | outOfFuel
  deriving DecidableEq, Repr

/-- The test `strncmp(ptr,"DBUS_SESSION_BUS_ADDRESS",24) == 0 && ptr[24] == '='`. -/
def keyTest (ptr : List Nat) : Option Bool :=
  match strncmp ptr DBUS_SESSION_BUS_ADDRESS 24 with
  | none => none
  | some false => some false
  | some true =>
    match ptr.get? 24 with
    | none => none
    | some c => some (decide (c = 61))

/-- The loop `for(ptr = text.c_str(); *ptr; ptr += (strlen(ptr)+1))` with the
body's test; the body leaves the loop (`break`) at the first match. -/
def environLoop : Nat → List Nat → EnvScan
  | 0, _ => .outOfFuel
  | fuel + 1, ptr =>
    match ptr with
    | [] => .fault
    | b :: _ =>
      if b = 0 then .absent
      else
        match keyTest ptr with
        | none => .fault
        | some true => .found ptr
        | some false =>
          match strlen ptr with
          | none => .fault
          | some n => environLoop fuel (ptr.drop (n + 1))

/-- The scan of one environment block, started at `text.c_str()`. -/
def environScan (text : List Nat) : EnvScan :=
  environLoop (text.length + 1) text

/-- The spec's reading of a block: the NUL-separated records of the file. -/
def specRecords : List Nat → List (List Nat)
  | [] => [[]]
  | b :: t =>
    if b = 0 then [] :: specRecords t
    else
      match specRecords t with
      | [] => [[b]]
      | r :: rs => (b :: r) :: rs

/-- A record whose key is exactly `DBUS_SESSION_BUS_ADDRESS`: it starts with
the 24 bytes of the name followed by `=`. -/
def hasBusKey (r : List Nat) : Bool :=
  decide (r.take 25 = DBUS_SESSION_BUS_ADDRESS ++ [61])

/-- The spec's address of a block: the text after `=` of the first record
whose key is the session-bus-address variable. -/
def specAddress (content : List Nat) : Option (List Nat) :=
  ((specRecords content).find? hasBusKey).map (·.drop 25)

/-- Records laid out one after the other, each followed by its NUL. -/
def encode : List (List Nat) → List Nat
  | [] => []
  | r :: rs => r ++ 0 :: encode rs

/-! ## Process credentials -/

/-- The user ids of the process: real, effective and saved set-user-ID. -/
structure Creds where
  ruid : Nat
  euid : Nat
  suid : Nat
  deriving DecidableEq, Repr

/-- `geteuid()`. -/
def geteuid (c : Creds) : Nat := c.euid

/-- `seteuid(u)` as seteuid(2) documents it: `(uid_t)-1` is rejected; a
process whose effective id is 0 may take any id; any other process may only
take its real, effective or saved set-user-ID. Only the effective id changes.
`none` is the call returning -1, the credentials being left as they were. -/
def seteuid (c : Creds) (u : Nat) : Option Creds :=
  if u = 4294967295 then none
  else if c.euid = 0 ∨ u = c.ruid ∨ u = c.euid ∨ u = c.suid then some { c with euid := u }
  else none

/-! ## Library calls -/

/-- The calls to the operating system, libdbus and the thread library that
the modelled functions make, and the store `connection = nullptr`. -/
inductive Call where
  | openat (d_name : String) (ok : Bool)
  | sd_pid_get_session (d_name : String)
  | read_environ (d_name : String)
  | geteuid (euid : Nat)
  | seteuid (uid : Nat) (ok : Bool)
  | dbus_connection_open (address : List Nat) (ok : Bool)
  | dbus_threads_init_default
  | dbus_bus_register (ok : Bool)
  | dbus_connection_add_filter (ok : Bool)
  | dbus_connection_set_exit_on_disconnect
  | thread_new
  | MainLoop_getInstance
  | dbus_connection_set_watch_functions (install : Bool) (ok : Bool)
  | dbus_connection_set_timeout_functions (install : Bool) (ok : Bool)
  | dbus_connection_remove_filter
  | dbus_connection_flush
  | dbus_connection_unref
  | remove_from (intf : Nat)
  | thread_join
  | thread_delete
  | connection_assign_null
  | log_warning
  | log_error
  deriving DecidableEq, Repr

/-! ## Per-user factory (`connection_factories.cc`, lines 51-187) -/

/-- `ENODATA` on Linux. -/
def ENODATA : Int := 61

/-- `ENOENT`. -/
def ENOENT : Nat := 2

/-- `EINVAL`. -/
def EINVAL : Nat := 22

/-- What `sd_pid_get_session(atoi(ent->d_name), &sname)` gives: the return
value and the value of `sname` afterwards (`none` is the null pointer the
variable was initialised with). -/
structure SessionLookup where
  rc : Int
  sname : Option (List Nat)
  deriving DecidableEq, Repr

/-- The open descriptor on `/proc/[PID]/environ`: the owner reported by
`fstat` (`none` when `fstat` fails) and the bytes `File::Text` reads. -/
structure EnvironFile where
  st_uid : Option Nat
  content : List Nat
  deriving DecidableEq, Repr

/-- One entry returned by `readdir`: its name, the result of opening its
`environ` file (`none` when `openat` fails) and the login-session lookup for
its pid. -/
structure Entry where
  d_name : String
  environ : Option EnvironFile
  session : SessionLookup
  deriving DecidableEq, Repr

/-- `Environ::uid()`: the owner of the descriptor, `(uid_t)-1` when `fstat`
fails. -/
def EnvironFile.uid (f : EnvironFile) : Nat :=
  match f.st_uid with
  | none => 4294967295
  | some u => u

/-- The test `sid && *sid`. -/
def sidSupplied : Option (List Nat) → Bool
  | some (_ :: _) => true
  | _ => false

/-- What the code does with a candidate after the ownership test. -/
inductive Filter where
  | skip
  | scan
  | fault
  deriving DecidableEq, Repr

/-- The `#ifdef HAVE_SYSTEMD` block (lines 106-123). `fault` is
`strcmp(sid, sname)` with `sname` null. -/
def sessionCheck (HAVE_SYSTEMD : Bool) (sid : Option (List Nat)) (s : SessionLookup) : Filter :=
  if !HAVE_SYSTEMD then .scan
  else if s.rc = -ENODATA then .skip
  else if sidSupplied sid then
    match s.sname with
    | none => .fault
    | some sname => if strcmp (sid.getD []) sname then .skip else .scan
  else .scan

/-- `dbus_connection_open(address, &err)`: a handle, or the error text. -/
abbrev DBusOpen := List Nat → Except String Nat

/-- How one pass through the body of the `while` loop ends. -/
inductive Step where
  | next
  | connected (connection : Nat)
  | fault
  deriving DecidableEq, Repr

/-- The critical section (lines 131-165), entered with `ptr` at the matching
record: the lock is taken, the effective id saved and switched, the address
at `ptr + 25` opened, and the saved id set again. -/
def attempt (dbus_open : DBusOpen) (uid : Nat) (c : Creds) (ptr : List Nat) :
    Step × Creds × List Call :=
  let saved_uid := geteuid c
  match seteuid c uid with
  | none => (.next, c, [.geteuid saved_uid, .seteuid uid false])
  | some c1 =>
    match cstring (ptr.drop 25) with
    | none => (.fault, c1, [.geteuid saved_uid, .seteuid uid true])
    | some address =>
      let restored := seteuid c1 saved_uid
      let c2 := restored.getD c1
      match dbus_open address with
      | .ok h =>
        (.connected h, c2, [.geteuid saved_uid, .seteuid uid true,
          .dbus_connection_open address true, .seteuid saved_uid restored.isSome])
      | .error _ =>
        (.next, c2, [.geteuid saved_uid, .seteuid uid true,
          .dbus_connection_open address false, .seteuid saved_uid restored.isSome])

/-- The body of the `while` loop for one entry (lines 99-169). -/
def candidate (HAVE_SYSTEMD : Bool) (dbus_open : DBusOpen) (uid : Nat)
    (sid : Option (List Nat)) (c : Creds) (e : Entry) : Step × Creds × List Call :=
  match e.environ with
  | none => (.next, c, [.openat e.d_name false])
  | some f =>
    if f.uid ≠ uid then (.next, c, [.openat e.d_name true])
    else
      match sessionCheck HAVE_SYSTEMD sid e.session with
      | .skip => (.next, c, [.openat e.d_name true, .sd_pid_get_session e.d_name])
      | .fault => (.fault, c, [.openat e.d_name true, .sd_pid_get_session e.d_name])
      | .scan =>
        let pre := [Call.openat e.d_name true] ++
          (if HAVE_SYSTEMD then [Call.sd_pid_get_session e.d_name] else []) ++
          [Call.read_environ e.d_name]
        match environScan (c_str f.content) with
        | .absent => (.next, c, pre)
        | .fault => (.fault, c, pre)
        | .outOfFuel => (.fault, c, pre)
        | .found ptr =>
          let r := attempt dbus_open uid c ptr
          (r.1, r.2.1, pre ++ r.2.2)

/-- How `Factory(uid, sid)` ends: it returns a handle, throws a
`system_error` with an error number, or leaves defined behaviour. -/
inductive FactoryResult where
  | returned (connection : Nat)
  | system_error (errno : Nat)
  | fault
  deriving DecidableEq, Repr

/-- The loop `while((ent=readdir(dir))!=NULL && !connection)` over the entries
`readdir` returns, followed by the test `if(!connection)` (lines 97-186). -/
def factoryLoop (HAVE_SYSTEMD : Bool) (dbus_open : DBusOpen) (uid : Nat)
    (sid : Option (List Nat)) : List Entry → Creds → FactoryResult × Creds × List Call
  | [], c => (.system_error ENOENT, c, [])
  | e :: es, c =>
    let r := candidate HAVE_SYSTEMD dbus_open uid sid c e
    match r.1 with
    | .connected h => (.returned h, r.2.1, r.2.2)
    | .fault => (.fault, r.2.1, r.2.2)
    | .next =>
      let s := factoryLoop HAVE_SYSTEMD dbus_open uid sid es r.2.1
      (s.1, s.2.1, r.2.2 ++ s.2.2)

/-- `DBus::Connection::Factory(uid_t, const char *)`. `proc` is the result of
`opendir("/proc")`: the entries of the directory in enumeration order, or the
error number of the failure. -/
def Factory (HAVE_SYSTEMD : Bool) (dbus_open : DBusOpen) (proc : Except Nat (List Entry))
    (uid : Nat) (sid : Option (List Nat)) (c : Creds) : FactoryResult × Creds × List Call :=
  match proc with
  | .error errno => (.system_error errno, c, [])
  | .ok entries => factoryLoop HAVE_SYSTEMD dbus_open uid sid entries c

/-! ## Connection (`connection.cc`) -/

/-- The part of a libdbus connection object that the constructor and the
destructor act on: its reference count, the user data of the installed
message filters, the user data of the registered watch and timeout
functions, and two flags. -/
structure Handle where
  refs : Nat
  filters : List Nat
  watch : Option Nat
  timeout : Option Nat
  registered : Bool
  exit_on_disconnect : Bool
  deriving DecidableEq, Repr

/-- The fields of `DBus::Connection`; `self` stands for the `this` pointer
the object hands to libdbus as user data. -/
structure Connection where
  self : Nat
  name : String
  connection : Option Nat
  thread : Option Nat
  interfaces : List Nat
  deriving DecidableEq, Repr

/-- The answers libdbus gives to the constructor's calls. -/
structure Answers where
  bus_register : Except String Unit
  add_filter : Bool
  set_watch_functions : Bool
  set_timeout_functions : Bool

/-- How a constructor or a factory ends in an exception. -/
inductive Thrown where
  | system_error (errno : Nat) (what : String)
  | runtime_error (what : String)
  deriving DecidableEq, Repr

/-- The `try` block of `Connection(DBusConnection *, const char *, bool)`
(lines 58-133): the thread pointer on normal completion or the text of the
`runtime_error` thrown, the state of the handle, and the calls made. -/
def constructTry (use_thread : Bool) (lib : Answers) (self : Nat) (h : Handle) (reg : Bool) :
    Except String (Option Nat) × Handle × List Call :=
  let r := if reg then lib.bus_register else .ok ()
  match r with
  | .error message => (.error message, h, [.dbus_bus_register false])
  | .ok _ =>
    let h1 := if reg then { h with registered := true } else h
    let k1 := if reg then [Call.dbus_bus_register true] else []
    if !lib.add_filter then
      (.error "Cant add filter to D-Bus connection", h1, k1 ++ [.dbus_connection_add_filter false])
    else
      let h2 := { h1 with filters := self :: h1.filters, exit_on_disconnect := false }
      let k2 := k1 ++ [.dbus_connection_add_filter true, .dbus_connection_set_exit_on_disconnect]
      if use_thread then
        (.ok (some self), h2, k2 ++ [.thread_new])
      else if !lib.set_watch_functions then
        (.error "dbus_connection_set_watch_functions has failed", h2,
          k2 ++ [.MainLoop_getInstance, .dbus_connection_set_watch_functions true false])
      else
        let h3 := { h2 with watch := some self }
        let k3 := k2 ++ [.MainLoop_getInstance, .dbus_connection_set_watch_functions true true]
        if !lib.set_timeout_functions then
          (.error "dbus_connection_set_timeout_functions has failed", h3,
            k3 ++ [.dbus_connection_set_timeout_functions true false])
        else
          (.ok none, { h3 with timeout := some self },
            k3 ++ [.dbus_connection_set_timeout_functions true true])

/-- `DBus::Connection::Connection(DBusConnection * c, const char *n, bool reg)`
(lines 44-142). `c` names the handle, `h` is its state; `initialized` is the
function-static flag. The handler `catch(...)` releases the handle once and
rethrows. -/
def construct (use_thread initialized : Bool) (lib : Answers) (self : Nat) (c : Nat)
    (h : Handle) (n : String) (reg : Bool) :
    Except Thrown Connection × Handle × List Call :=
  let k0 := if initialized then [] else [Call.dbus_threads_init_default]
  let r := constructTry use_thread lib self h reg
  match r.1 with
  | .error message =>
    (.error (.runtime_error message), { r.2.1 with refs := r.2.1.refs - 1 },
      k0 ++ r.2.2 ++ [.dbus_connection_unref])
  | .ok thread =>
    (.ok { self := self, name := n, connection := some c, thread := thread, interfaces := [] },
      r.2.1, k0 ++ r.2.2)

/-- `ConnectionFactory(const char *busname)` (lines 166-185); `none` is the
null pointer. -/
def ConnectionFactory (dbus_open : DBusOpen) (busname : Option (List Nat)) :
    Except Thrown Nat × List Call :=
  match busname with
  | none => (.error (.system_error EINVAL "Invalid busname"), [])
  | some [] => (.error (.system_error EINVAL "Invalid busname"), [])
  | some (b :: t) =>
    match dbus_open (b :: t) with
    | .error message => (.error (.runtime_error message), [.dbus_connection_open (b :: t) false])
    | .ok connection => (.ok connection, [.dbus_connection_open (b :: t) true])

/-- What `getpwuid_r(uid, &pwd, buf, bufsize, &result)` gives: the return
value, the login name behind `result` (`none` when `result` is null), and
the C string found at `buf` afterwards. -/
structure PwLookup where
  rc : Nat
  result : Option String
  buf : String
  deriving DecidableEq, Repr

/-- The body of `Connection(uid_t uid, const char *sid)` (lines 146-162): the
value given to `name`. -/
def userName (uid : Nat) (pw : PwLookup) : String :=
  if pw.rc ≠ 0 then "U" ++ toString uid else pw.buf

/-- `DBus::Connection::flush()` (lines 254-258). -/
def flush (obj : Connection) : List Call :=
  if obj.connection.isSome then [.dbus_connection_flush] else []

/-- The block `if(connection) { ... } else { ... }` of the destructor (lines
202-250). `h` is the state of the handle the object points to; `unset_watch`
and `unset_timeout` are the results of the two calls that reset the
callbacks. `delete thread` leaves the field `thread` as it was. -/
def teardown (use_thread : Bool) (unset_watch unset_timeout : Bool) (obj : Connection)
    (h : Handle) : Connection × Handle × List Call :=
  match obj.connection with
  | none => (obj, h, [.log_warning])
  | some _ =>
    let h1 := { h with filters := h.filters.erase obj.self }
    let k1 := [Call.dbus_connection_remove_filter]
    match obj.thread with
    | some _ =>
      ({ obj with connection := none }, { h1 with refs := h1.refs - 1 },
        k1 ++ [.thread_join, .thread_delete, .dbus_connection_unref, .connection_assign_null])
    | none =>
      if !use_thread then
        let h2 := if unset_watch then { h1 with watch := none } else h1
        let k2 := k1 ++ [.dbus_connection_set_watch_functions false unset_watch] ++
          (if unset_watch then [] else [Call.log_error])
        let h3 := if unset_timeout then { h2 with timeout := none } else h2
        let k3 := k2 ++ [.dbus_connection_set_timeout_functions false unset_timeout] ++
          (if unset_timeout then [] else [Call.log_error])
        ({ obj with connection := none }, { h3 with refs := h3.refs - 1 },
          k3 ++ [.dbus_connection_unref, .connection_assign_null])
      else
        (obj, h1, k1)

/-- `DBus::Connection::~Connection()` (lines 190-252): the flush, the removal
of every listener, then the block on the handle. -/
def destroy (use_thread : Bool) (unset_watch unset_timeout : Bool) (obj : Connection)
    (h : Handle) : Connection × Handle × List Call :=
  let r := teardown use_thread unset_watch unset_timeout { obj with interfaces := [] } h
  (r.1, r.2.1, flush obj ++ obj.interfaces.map Call.remove_from ++ r.2.2)

/-- The condition of the worker's loop (line 91):
`connection && dbus_connection_read_write(connct,100)`. -/
def workerContinues (obj : Connection) (read_write : Bool) : Bool :=
  obj.connection.isSome && read_write

/-- First occurrence order: every call satisfying `q` in the list has a call
satisfying `p` somewhere before it. -/
def precededBy (p q : Call → Bool) : List Call → Bool
  | [] => true
  | c :: t => if q c then false else if p c then true else precededBy p q t

/-- The release of the destructor's reference. -/
def isUnref (c : Call) : Bool := decide (c = .dbus_connection_unref)

/-- The removal of the message filter. -/
def isRemoveFilter (c : Call) : Bool := decide (c = .dbus_connection_remove_filter)

/-- The join of the worker thread. -/
def isJoin (c : Call) : Bool := decide (c = .thread_join)

/-- The call that resets the watch functions to null. -/
def isUnsetWatch : Call → Bool
  | .dbus_connection_set_watch_functions false _ => true
  | _ => false

/-- The call that resets the timeout functions to null. -/
def isUnsetTimeout : Call → Bool
  | .dbus_connection_set_timeout_functions false _ => true
  | _ => false

/-- `Connection(const char *busname, const char *name)` (line 187): the
factory runs first, as the argument of the delegated constructor; when it
throws, that constructor is not entered. `state` gives the state of the
handle the open returned, `reg` is the value of the defaulted third
parameter. -/
def connectByAddress (use_thread initialized : Bool) (lib : Answers) (dbus_open : DBusOpen)
    (state : Nat → Handle) (self : Nat) (busname : Option (List Nat)) (name : String)
    (reg : Bool) : Except Thrown Connection × List Call :=
  match ConnectionFactory dbus_open busname with
  | (.error e, k) => (.error e, k)
  | (.ok c, k) =>
    let r := construct use_thread initialized lib self c (state c) name reg
    (r.1, k ++ r.2.2)

/-- The calls to `dbus_connection_open`. -/
def isOpen : Call → Bool
  | .dbus_connection_open _ _ => true
  | _ => false

/-! ## Sample values -/

/-- The bytes of `KEY=VALUE` records as `/proc/[PID]/environ` holds them. -/
def sampleEnviron : List Nat :=
  bytes "A=1\x00DBUS_SESSION_BUS_ADDRESS=unix:x\x00"

/-- The same records with an empty record before the bus address. -/
def gappedEnviron : List Nat :=
  bytes "A=1\x00\x00DBUS_SESSION_BUS_ADDRESS=unix:x\x00"

/-- A handle as `dbus_connection_open` returns it for a shared connection:
one reference for the caller and one kept by the library. -/
def freshHandle : Handle :=
  { refs := 2, filters := [], watch := none, timeout := none, registered := false,
    exit_on_disconnect := true }

/-- Answers of a library in which every call succeeds. -/
def allGood : Answers :=
  { bus_register := .ok (), add_filter := true, set_watch_functions := true,
    set_timeout_functions := true }

/-- A connection in event-loop mode with one listener. -/
def loopConnection : Connection :=
  { self := 1, name := "sessionbus", connection := some 9, thread := none, interfaces := [4] }

/-- A transport on which every open fails with the same text. -/
def refusingBus : DBusOpen := fun _ => .error "Connection refused"

/-- A transport on which every open succeeds with handle 7. -/
def acceptingBus : DBusOpen := fun _ => .ok 7

/-- Credentials of a daemon running as root. -/
def rootCreds : Creds := { ruid := 0, euid := 0, suid := 0 }

/-- Credentials of a process started by user 1000 whose effective id alone
is 0. -/
def effectiveRootCreds : Creds := { ruid := 1000, euid := 0, suid := 1000 }

/-- The record `DBUS_SESSION_BUS_ADDRESS=unix:x`. -/
def busRecord : List Nat := bytes "DBUS_SESSION_BUS_ADDRESS=unix:x"

/-- A process of user 1000 in login session `3` that advertises a bus. -/
def sessionEntry : Entry :=
  { d_name := "4711", environ := some { st_uid := some 1000, content := sampleEnviron },
    session := { rc := 0, sname := some (bytes "3") } }

/-- A process of user 1000 outside any login session (`-ENODATA`) that
advertises a bus. -/
def daemonEntry : Entry :=
  { d_name := "812", environ := some { st_uid := some 1000, content := sampleEnviron },
    session := { rc := -61, sname := none } }

/-- A process of user 1000 that exited after its `environ` file was opened:
the session lookup fails with `-ESRCH` and leaves `sname` null. -/
def vanishedEntry : Entry :=
  { d_name := "4502", environ := some { st_uid := some 1000, content := sampleEnviron },
    session := { rc := -3, sname := none } }

/-! ## Lemmas on call lists -/

theorem precededBy_sound (p q : Call → Bool) (l : List Call) (h : precededBy p q l = true)
    (pre : List Call) (c : Call) (post : List Call) (hl : l = pre ++ c :: post)
    (hq : q c = true) : ∃ d ∈ pre, p d = true := by
  induction l generalizing pre with
  | nil => cases pre <;> simp at hl
  | cons a t ih =>
    cases pre with
    | nil =>
      simp only [List.nil_append, List.cons.injEq] at hl
      obtain ⟨rfl, -⟩ := hl
      simp [precededBy, hq] at h
    | cons b pre1 =>
      simp only [List.cons_append, List.cons.injEq] at hl
      obtain ⟨rfl, ht⟩ := hl
      by_cases hqa : q a = true
      · simp [precededBy, hqa] at h
      · by_cases hpa : p a = true
        · exact ⟨a, by simp, hpa⟩
        · simp only [precededBy, hqa, hpa] at h
          obtain ⟨d, hd, hpd⟩ := ih (by simpa using h) pre1 ht
          exact ⟨d, by simp [hd], hpd⟩

theorem precededBy_append (p q : Call → Bool) (l1 l2 : List Call)
    (h1 : ∀ c ∈ l1, q c = false) (h2 : precededBy p q l2 = true) :
    precededBy p q (l1 ++ l2) = true := by
  induction l1 with
  | nil => simpa using h2
  | cons a t ih =>
    have hqa : q a = false := h1 a (by simp)
    have := ih (fun c hc => h1 c (by simp [hc]))
    by_cases hpa : p a = true <;> simp [precededBy, hqa, hpa, this]

/-! ## Lemmas on C strings and the environment scan -/

theorem strlen_record (r t : List Nat) (h0 : 0 ∉ r) :
    strlen (r ++ 0 :: t) = some r.length := by
  induction r with
  | nil => simp [strlen]
  | cons b r ih =>
    simp only [List.mem_cons, not_or] at h0
    have hb : b ≠ 0 := fun h => h0.1 h.symm
    simp [strlen, hb, ih h0.2]

theorem cstring_record (r t : List Nat) (h0 : 0 ∉ r) :
    cstring (r ++ 0 :: t) = some r := by
  induction r with
  | nil => simp [cstring]
  | cons b r ih =>
    simp only [List.mem_cons, not_or] at h0
    have hb : b ≠ 0 := fun h => h0.1 h.symm
    simp [cstring, hb, ih h0.2]

theorem strncmp_record (lit : List Nat) (hlit : 0 ∉ lit) (r t : List Nat) (h0 : 0 ∉ r) :
    strncmp (r ++ 0 :: t) lit lit.length = some (decide (r.take lit.length = lit)) := by
  induction lit generalizing r with
  | nil => simp [strncmp]
  | cons k ks ih =>
    simp only [List.mem_cons, not_or] at hlit
    have hk : k ≠ 0 := fun h => hlit.1 h.symm
    cases r with
    | nil => simp [strncmp, Ne.symm hk]
    | cons x r1 =>
      simp only [List.mem_cons, not_or] at h0
      have hx : x ≠ 0 := fun h => h0.1 h.symm
      by_cases hxk : x = k
      · subst hxk
        simp [strncmp, hx, ih hlit.2 r1 h0.2]
      · simp [strncmp, hxk]

theorem keyTest_record (r t : List Nat) (h0 : 0 ∉ r) :
    keyTest (r ++ 0 :: t) = some (hasBusKey r) := by
  have hs := strncmp_record DBUS_SESSION_BUS_ADDRESS (by decide) r t h0
  have hlen : DBUS_SESSION_BUS_ADDRESS.length = 24 := rfl
  rw [hlen] at hs
  unfold keyTest
  rw [hs]
  by_cases hk : r.take 24 = DBUS_SESSION_BUS_ADDRESS
  · have hl : 24 ≤ r.length := by
      have := congrArg List.length hk
      simp only [List.length_take, hlen] at this
      omega
    have h25 : r.take 25 = DBUS_SESSION_BUS_ADDRESS ++ (r.drop 24).take 1 := by
      rw [← hk, ← List.take_add]
    simp only [hk, decide_True]
    cases hd : r.drop 24 with
    | nil =>
      have hl2 : r.length = 24 := by
        have := congrArg List.length hd
        simp only [List.length_drop, List.length_nil] at this
        omega
      have hg : (r ++ 0 :: t)[24]? = some 0 := by
        rw [List.getElem?_append_right (by omega)]
        simp [hl2]
      simp [hg, hasBusKey, h25, hd]
    | cons x rest =>
      have hg : (r ++ 0 :: t)[24]? = some x := by
        have hlt : (r.take 24).length = 24 := by simp [hl]
        have hx : (r.take 24 ++ x :: rest ++ 0 :: t)[24]? = some x := by
          rw [List.append_assoc, List.getElem?_append_right (by omega)]
          simp [hlt]
        rwa [← hd, List.take_append_drop] at hx
      simp [hg, hasBusKey, h25, hd]
  · have hne : r.take 25 ≠ DBUS_SESSION_BUS_ADDRESS ++ [61] := by
      intro h
      apply hk
      have := congrArg (List.take 24) h
      rw [List.take_take] at this
      simpa [DBUS_SESSION_BUS_ADDRESS] using this
    simp [hk, hasBusKey, hne]

theorem environLoop_terminates (fuel : Nat) (ptr : List Nat) (hf : ptr.length < fuel) :
    environLoop fuel ptr ≠ .outOfFuel := by
  induction fuel generalizing ptr with
  | zero => omega
  | succ f ih =>
    cases ptr with
    | nil => simp [environLoop]
    | cons b t =>
      unfold environLoop
      by_cases hb : b = 0
      · simp [hb]
      · simp only [hb, if_false]
        cases keyTest (b :: t) with
        | none => simp
        | some v =>
          cases v with
          | true => simp
          | false =>
            cases strlen (b :: t) with
            | none => simp
            | some n =>
              apply ih
              simp only [List.length_drop, List.length_cons] at hf ⊢
              omega

theorem environLoop_records (rs : List (List Nat)) (rest : List Nat)
    (hrs : ∀ r ∈ rs, r ≠ [] ∧ 0 ∉ r) (fuel : Nat) (hf : (encode rs).length < fuel) :
    (∀ r, rs.find? hasBusKey = some r →
      ∃ tail, environLoop fuel (encode rs ++ 0 :: rest) = .found (r ++ 0 :: tail)) ∧
    (rs.find? hasBusKey = none → environLoop fuel (encode rs ++ 0 :: rest) = .absent) := by
  induction rs generalizing fuel with
  | nil =>
    cases fuel with
    | zero => omega
    | succ f => simp [encode, environLoop]
  | cons r rs ih =>
    obtain ⟨hne, h0⟩ := hrs r (by simp)
    have hrs1 : ∀ r1 ∈ rs, r1 ≠ [] ∧ 0 ∉ r1 := fun r1 h1 => hrs r1 (by simp [h1])
    cases fuel with
    | zero => omega
    | succ f =>
      have hf1 : (encode rs).length < f := by
        simp only [encode, List.length_append, List.length_cons] at hf
        omega
      have hkey := keyTest_record r (encode rs ++ 0 :: rest) h0
      have hlen := strlen_record r (encode rs ++ 0 :: rest) h0
      have htext : encode (r :: rs) ++ 0 :: rest = r ++ 0 :: (encode rs ++ 0 :: rest) := by
        simp [encode]
      have hdrop : (r ++ 0 :: (encode rs ++ 0 :: rest)).drop (r.length + 1) =
          encode rs ++ 0 :: rest := by
        rw [List.drop_append_eq_append_drop]
        simp
      rw [htext]
      cases r with
      | nil => exact absurd rfl hne
      | cons b r1 =>
        have hb : b ≠ 0 := by
          intro h
          apply h0
          simp [h]
        by_cases hk : hasBusKey (b :: r1) = true
        · constructor
          · intro r2 hfind
            simp only [List.find?_cons, hk, Option.some.injEq] at hfind
            subst hfind
            refine ⟨encode rs ++ 0 :: rest, ?_⟩
            rw [hk] at hkey
            simp only [List.cons_append] at hkey ⊢
            simp [environLoop, hb, hkey]
          · intro hfind
            simp [List.find?_cons, hk] at hfind
        · have hk1 : hasBusKey (b :: r1) = false := by simpa using hk
          rw [hk1] at hkey
          have hstep : environLoop (f + 1) (b :: r1 ++ 0 :: (encode rs ++ 0 :: rest)) =
              environLoop f (encode rs ++ 0 :: rest) := by
            simp only [List.cons_append] at hkey hlen hdrop ⊢
            simp only [environLoop, hb, if_false, hkey, hlen]
            rw [hdrop]
          rw [hstep]
          simp only [List.find?_cons, hk1]
          exact ih hrs1 f hf1

theorem drop_record_address (r tail : List Nat) (h0 : 0 ∉ r) (hk : hasBusKey r = true) :
    cstring ((r ++ 0 :: tail).drop 25) = some (r.drop 25) := by
  have hl : 25 ≤ r.length := by
    simp only [hasBusKey, decide_eq_true_eq] at hk
    have := congrArg List.length hk
    simp only [List.length_take, List.length_append, DBUS_SESSION_BUS_ADDRESS,
      List.length_cons, List.length_nil] at this
    omega
  have hd : (r ++ 0 :: tail).drop 25 = r.drop 25 ++ 0 :: tail := by
    rw [List.drop_append_eq_append_drop]
    have : 25 - r.length = 0 := by omega
    simp [this]
  rw [hd]
  exact cstring_record _ _ (fun h => h0 (List.mem_of_mem_drop h))

/-! ## Constructor -/

/-- An object the constructor completes has a worker thread exactly when
`use_thread` is set, and its handle field is the handle it was given. -/
theorem construct_thread_iff (use_thread initialized : Bool) (lib : Answers) (self c : Nat)
    (h : Handle) (n : String) (reg : Bool) (obj : Connection)
    (hok : (construct use_thread initialized lib self c h n reg).1 = .ok obj) :
    (obj.thread ≠ none ↔ use_thread = true) ∧ obj.connection = some c := by
  obtain ⟨reg_r, add_filter, set_watch, set_timeout⟩ := lib
  cases reg_r <;> cases reg <;> cases add_filter <;> cases use_thread <;> cases set_watch <;>
    cases set_timeout <;> simp [construct, constructTry] at hok <;> subst hok <;> simp

/-! ## Destructor -/

theorem teardown_order (use_thread uw ut : Bool) (obj : Connection) (h : Handle) :
    (teardown use_thread uw ut obj h).2.2.count Call.dbus_connection_unref ≤ 1 ∧
    precededBy isRemoveFilter isUnref (teardown use_thread uw ut obj h).2.2 = true ∧
    (obj.thread ≠ none ∨ use_thread = true →
      precededBy isJoin isUnref (teardown use_thread uw ut obj h).2.2 = true) ∧
    (obj.thread = none →
      precededBy isUnsetWatch isUnref (teardown use_thread uw ut obj h).2.2 = true ∧
      precededBy isUnsetTimeout isUnref (teardown use_thread uw ut obj h).2.2 = true) ∧
    (Call.dbus_connection_unref ∈ (teardown use_thread uw ut obj h).2.2 →
      (teardown use_thread uw ut obj h).1.connection = none ∧
      (obj.thread = none → uw = true → ut = true →
        (teardown use_thread uw ut obj h).2.1.watch = none ∧
        (teardown use_thread uw ut obj h).2.1.timeout = none)) := by
  obtain ⟨self, name, conn, thr, intfs⟩ := obj
  cases conn <;> cases thr <;> cases use_thread <;> cases uw <;> cases ut <;>
    simp [teardown, precededBy, isRemoveFilter, isUnref, isJoin, isUnsetWatch, isUnsetTimeout]

theorem preamble_no_unref (obj : Connection) :
    ∀ c ∈ flush obj ++ obj.interfaces.map Call.remove_from, isUnref c = false := by
  intro c hc
  simp only [List.mem_append, List.mem_map] at hc
  rcases hc with hc | ⟨i, -, rfl⟩
  · unfold flush at hc
    split at hc
    · simp only [List.mem_singleton] at hc
      subst hc
      rfl
    · simp at hc
  · rfl

/-- C7. On every path through the destructor the handle is released at most
once; every release comes after the removal of the message filter and after
the join of the worker thread (when the object has one, and always when
`use_thread` is set) or the calls that reset the watch and the timeout
callbacks (when it has none); whenever a
release happened the handle field is null at the end, and, the object having
no thread and both resets having succeeded, the handle has no watch and no
timeout functions left. -/
theorem destroy_release_order (use_thread unset_watch unset_timeout : Bool)
    (obj : Connection) (h : Handle) :
    (destroy use_thread unset_watch unset_timeout obj h).2.2.count Call.dbus_connection_unref ≤ 1 ∧
    (∀ pre post,
      (destroy use_thread unset_watch unset_timeout obj h).2.2 =
        pre ++ Call.dbus_connection_unref :: post →
      Call.dbus_connection_remove_filter ∈ pre ∧
      (obj.thread ≠ none ∨ use_thread = true → Call.thread_join ∈ pre) ∧
      (obj.thread = none →
        (∃ ok, Call.dbus_connection_set_watch_functions false ok ∈ pre) ∧
        (∃ ok, Call.dbus_connection_set_timeout_functions false ok ∈ pre))) ∧
    (Call.dbus_connection_unref ∈ (destroy use_thread unset_watch unset_timeout obj h).2.2 →
      (destroy use_thread unset_watch unset_timeout obj h).1.connection = none ∧
      (obj.thread = none → unset_watch = true → unset_timeout = true →
        (destroy use_thread unset_watch unset_timeout obj h).2.1.watch = none ∧
        (destroy use_thread unset_watch unset_timeout obj h).2.1.timeout = none)) := by
  obtain ⟨hcount, hfilter, hjoin, hunset, hnull⟩ :=
    teardown_order use_thread unset_watch unset_timeout { obj with interfaces := [] } h
  have hpre := preamble_no_unref obj
  have hpre0 : Call.dbus_connection_unref ∉ flush obj ++ obj.interfaces.map Call.remove_from := by
    intro hmem
    have := hpre _ hmem
    simp [isUnref] at this
  refine ⟨?_, ?_, ?_⟩
  · simp only [destroy, List.count_append] at hcount ⊢
    have h0 := List.count_eq_zero.mpr hpre0
    simp only [List.count_append] at h0
    omega
  · intro pre post hsplit
    have key : ∀ p : Call → Bool,
        precededBy p isUnref
          (teardown use_thread unset_watch unset_timeout { obj with interfaces := [] } h).2.2 = true →
        ∃ d ∈ pre, p d = true := fun p hp =>
      precededBy_sound p isUnref _ (precededBy_append p isUnref _ _ hpre hp) pre _ post hsplit rfl
    refine ⟨?_, ?_, ?_⟩
    · obtain ⟨d, hd, hp⟩ := key _ hfilter
      simp only [isRemoveFilter, decide_eq_true_eq] at hp
      exact hp ▸ hd
    · intro hthr
      obtain ⟨d, hd, hp⟩ := key _ (hjoin hthr)
      simp only [isJoin, decide_eq_true_eq] at hp
      exact hp ▸ hd
    · intro hthr
      obtain ⟨hw, ht⟩ := hunset hthr
      constructor
      · obtain ⟨d, hd, hp⟩ := key _ hw
        cases d <;> simp [isUnsetWatch] at hp
        rename_i install ok
        cases install <;> simp [isUnsetWatch] at hp
        exact ⟨ok, hd⟩
      · obtain ⟨d, hd, hp⟩ := key _ ht
        cases d <;> simp [isUnsetTimeout] at hp
        rename_i install ok
        cases install <;> simp [isUnsetTimeout] at hp
        exact ⟨ok, hd⟩
  · intro hmem
    apply hnull
    simp only [destroy, List.mem_append] at hmem
    rcases hmem with hmem | hmem
    · exact absurd (List.mem_append.mpr hmem) hpre0
    · exact hmem

/-- C7 at a connection in event-loop mode: the five calls before the release
contain the filter removal and both resets. -/
theorem destroy_release_order_witness :
    Call.dbus_connection_remove_filter ∈
        [Call.dbus_connection_flush, .remove_from 4, .dbus_connection_remove_filter,
          .dbus_connection_set_watch_functions false true,
          .dbus_connection_set_timeout_functions false true] ∧
      (∃ ok, Call.dbus_connection_set_watch_functions false ok ∈
        [Call.dbus_connection_flush, .remove_from 4, .dbus_connection_remove_filter,
          .dbus_connection_set_watch_functions false true,
          .dbus_connection_set_timeout_functions false true]) ∧
      (∃ ok, Call.dbus_connection_set_timeout_functions false ok ∈
        [Call.dbus_connection_flush, .remove_from 4, .dbus_connection_remove_filter,
          .dbus_connection_set_watch_functions false true,
          .dbus_connection_set_timeout_functions false true]) :=
  have w := (destroy_release_order false true true loopConnection freshHandle).2.1
    [Call.dbus_connection_flush, .remove_from 4, .dbus_connection_remove_filter,
      .dbus_connection_set_watch_functions false true,
      .dbus_connection_set_timeout_functions false true]
    [Call.connection_assign_null] rfl
  ⟨w.1, (w.2.2 rfl).1, (w.2.2 rfl).2⟩

/-- C5. For every connection with a handle and a worker thread the destructor
calls, in this order: flush, listener removals, filter removal, join of the
thread, deletion of the thread, release of the handle, and only then the store
of null into the handle field; until that store the worker's loop condition
depends on `dbus_connection_read_write` alone. -/
theorem destroy_threaded_order (use_thread unset_watch unset_timeout : Bool)
    (self : Nat) (name : String) (c t : Nat) (intfs : List Nat) (h : Handle) (read_write : Bool) :
    (destroy use_thread unset_watch unset_timeout
        { self := self, name := name, connection := some c, thread := some t,
          interfaces := intfs } h).2.2 =
      Call.dbus_connection_flush :: intfs.map Call.remove_from ++
        [.dbus_connection_remove_filter, .thread_join, .thread_delete,
          .dbus_connection_unref, .connection_assign_null] ∧
    workerContinues
        { self := self, name := name, connection := some c, thread := some t,
          interfaces := intfs } read_write = read_write := by
  constructor
  · simp [destroy, teardown, flush]
  · simp [workerContinues]

/-- C6. When the filter is installed and the registration of the watch
functions fails, the constructor throws the `runtime_error`, releases the
handle once, and leaves its own filter in the filter list of the handle: no
call removes it. -/
theorem construct_watch_failure_keeps_filter (initialized set_timeout : Bool) (self c : Nat)
    (h : Handle) (n : String) :
    (construct false initialized
        { bus_register := .ok (), add_filter := true, set_watch_functions := false,
          set_timeout_functions := set_timeout } self c h n false).1 =
      .error (.runtime_error "dbus_connection_set_watch_functions has failed") ∧
    (construct false initialized
        { bus_register := .ok (), add_filter := true, set_watch_functions := false,
          set_timeout_functions := set_timeout } self c h n false).2.1.filters =
      self :: h.filters ∧
    (construct false initialized
        { bus_register := .ok (), add_filter := true, set_watch_functions := false,
          set_timeout_functions := set_timeout } self c h n false).2.1.refs = h.refs - 1 ∧
    (construct false initialized
        { bus_register := .ok (), add_filter := true, set_watch_functions := false,
          set_timeout_functions := set_timeout } self c h n false).2.2 =
      (if initialized then [] else [Call.dbus_threads_init_default]) ++
        [.dbus_connection_add_filter true, .dbus_connection_set_exit_on_disconnect,
          .MainLoop_getInstance, .dbus_connection_set_watch_functions true false,
          .dbus_connection_unref] := by
  simp [construct, constructTry]

/-- C8. A null or empty address ends in `system_error(EINVAL)` without any
call; a non-empty address is opened exactly once, an error of that open is
thrown as a `runtime_error` with the transport's text, and the delegated
constructor adds no further open. -/
theorem connectByAddress_contract (use_thread initialized : Bool) (lib : Answers)
    (dbus_open : DBusOpen) (state : Nat → Handle) (self : Nat) (name : String) (reg : Bool) :
    connectByAddress use_thread initialized lib dbus_open state self none name reg =
      (.error (.system_error EINVAL "Invalid busname"), []) ∧
    connectByAddress use_thread initialized lib dbus_open state self (some []) name reg =
      (.error (.system_error EINVAL "Invalid busname"), []) ∧
    ∀ b t,
      (∃ ok, (connectByAddress use_thread initialized lib dbus_open state self
          (some (b :: t)) name reg).2.filter isOpen = [Call.dbus_connection_open (b :: t) ok]) ∧
      ∀ message, dbus_open (b :: t) = .error message →
        connectByAddress use_thread initialized lib dbus_open state self (some (b :: t)) name reg =
          (.error (.runtime_error message), [Call.dbus_connection_open (b :: t) false]) := by
  refine ⟨rfl, rfl, fun b t => ⟨?_, ?_⟩⟩
  · cases hopen : dbus_open (b :: t) with
    | error m => exact ⟨false, by simp [connectByAddress, ConnectionFactory, hopen, isOpen]⟩
    | ok c =>
      refine ⟨true, ?_⟩
      obtain ⟨reg_r, add_filter, set_watch, set_timeout⟩ := lib
      cases reg_r <;> cases reg <;> cases add_filter <;> cases use_thread <;> cases set_watch <;>
        cases set_timeout <;> cases initialized <;>
        simp [connectByAddress, ConnectionFactory, hopen, construct, constructTry, isOpen]
  · intro m hopen
    simp [connectByAddress, ConnectionFactory, hopen]

/-- C8 on a transport that refuses every open. -/
theorem connectByAddress_contract_witness :
    connectByAddress true false allGood refusingBus (fun _ => freshHandle) 1
        (some (bytes "unix:path=/run/x")) "user" true =
      (.error (.runtime_error "Connection refused"),
        [Call.dbus_connection_open (bytes "unix:path=/run/x") false]) :=
  ((connectByAddress_contract true false allGood refusingBus (fun _ => freshHandle) 1
    "user" true).2.2 117 (bytes "nix:path=/run/x")).2 "Connection refused" rfl

/-- C9. When `getpwuid_r` returns 0 and finds no entry, the name is whatever
C string the buffer holds, not the `U<uid>` tag. -/
theorem userName_no_entry (uid : Nat) (buf : String) :
    userName uid { rc := 0, result := none, buf := buf } = buf ∧
    userName 4242 { rc := 0, result := none, buf := "" } ≠ "U4242" := by
  constructor
  · simp [userName]
  · simp [userName]

/-! ## Environment scan -/

/-- C10 (as stated) fails: in a block with an empty record in front of the
record `DBUS_SESSION_BUS_ADDRESS=unix:x`, the first record with that key gives
the address `unix:x`, but the loop ends at the empty record and reaches no
attempt. -/
theorem environScan_stops_at_empty_record :
    specAddress gappedEnviron = some (bytes "unix:x") ∧
    environScan (c_str gappedEnviron) = EnvScan.absent := by
  decide

/-- C10 (amended). Let the buffer be a run of non-empty NUL-free records, each
followed by its NUL, then a NUL (an empty record or the terminator), then
anything. If some record of the run starts with `DBUS_SESSION_BUS_ADDRESS=`,
the loop stops at the first such record and the C string at `ptr + 25` is the
text after its `=`; if none does, the loop ends without a match. In both cases
a candidate that reaches the scan calls `dbus_connection_open` with that text
only, once when the switch of identity succeeds and never otherwise. The model
of the loop never runs out of steps, on any buffer. -/
theorem environScan_first_record (HAVE_SYSTEMD : Bool) (dbus_open : DBusOpen) (uid : Nat)
    (sid : Option (List Nat)) (c : Creds) (e : Entry) (f : EnvironFile)
    (rs : List (List Nat)) (rest : List Nat)
    (he : e.environ = some f) (hu : f.uid = uid)
    (hs : sessionCheck HAVE_SYSTEMD sid e.session = .scan)
    (hrs : ∀ r ∈ rs, r ≠ [] ∧ 0 ∉ r) (hc : c_str f.content = encode rs ++ 0 :: rest) :
    (∀ r, rs.find? hasBusKey = some r →
      (∃ ptr, environScan (c_str f.content) = .found ptr ∧
        cstring (ptr.drop 25) = some (r.drop 25)) ∧
      (seteuid c uid = none →
        (candidate HAVE_SYSTEMD dbus_open uid sid c e).2.2.filter isOpen = []) ∧
      (seteuid c uid ≠ none →
        ∃ ok, (candidate HAVE_SYSTEMD dbus_open uid sid c e).2.2.filter isOpen =
          [Call.dbus_connection_open (r.drop 25) ok])) ∧
    (rs.find? hasBusKey = none →
      environScan (c_str f.content) = .absent ∧
      (candidate HAVE_SYSTEMD dbus_open uid sid c e).2.2.filter isOpen = []) ∧
    (∀ text, environScan text ≠ .outOfFuel) := by
  have hfuel : (encode rs).length < (c_str f.content).length + 1 := by
    rw [hc]
    simp only [List.length_append, List.length_cons]
    omega
  have hloop := environLoop_records rs rest hrs _ hfuel
  rw [← hc] at hloop
  have hlead : ∀ l : List Call,
      (([Call.openat e.d_name true] ++
        (if HAVE_SYSTEMD = true then [Call.sd_pid_get_session e.d_name] else []) ++
        [Call.read_environ e.d_name]) ++ l).filter isOpen = l.filter isOpen := by
    intro l
    cases HAVE_SYSTEMD <;> simp [isOpen]
  refine ⟨?_, ?_, ?_⟩
  · intro r hfind
    obtain ⟨tail, hfound⟩ := hloop.1 r hfind
    have hr := List.mem_of_find?_eq_some hfind
    have hk : hasBusKey r = true := List.find?_some hfind
    have haddr := drop_record_address r tail (hrs r hr).2 hk
    have hscan : environScan (c_str f.content) = .found (r ++ 0 :: tail) := hfound
    refine ⟨⟨_, hscan, haddr⟩, ?_, ?_⟩
    · intro hset
      simp only [candidate, he, hu, hs, hscan, ne_eq, not_true_eq_false, if_false]
      rw [hlead]
      simp [attempt, hset, isOpen]
    · intro hset
      obtain ⟨c1, hc1⟩ := Option.ne_none_iff_exists'.mp hset
      simp only [candidate, he, hu, hs, hscan, ne_eq, not_true_eq_false, if_false]
      rw [hlead]
      cases hopen : dbus_open (r.drop 25) with
      | error m => exact ⟨false, by simp [attempt, hc1, haddr, hopen, isOpen]⟩
      | ok h => exact ⟨true, by simp [attempt, hc1, haddr, hopen, isOpen]⟩
  · intro hfind
    have hscan : environScan (c_str f.content) = .absent := hloop.2 hfind
    refine ⟨hscan, ?_⟩
    simp only [candidate, he, hu, hs, hscan, ne_eq, not_true_eq_false, if_false]
    have := hlead []
    simpa using this
  · intro text
    exact environLoop_terminates _ _ (Nat.lt_succ_self _)

/-- C10 (amended) at a block of two records, the second being the bus
address, scanned by a root process for user 1000. -/
theorem environScan_first_record_witness :
    (∃ ptr, environScan (c_str sampleEnviron) = .found ptr ∧
      cstring (ptr.drop 25) = some (bytes "unix:x")) ∧
    ∃ ok, (candidate true acceptingBus 1000 none rootCreds sessionEntry).2.2.filter isOpen =
      [Call.dbus_connection_open (bytes "unix:x") ok] :=
  have w := (environScan_first_record true acceptingBus 1000 none rootCreds sessionEntry
    { st_uid := some 1000, content := sampleEnviron } [bytes "A=1", busRecord] []
    rfl rfl (by decide) (by decide) (by decide)).1 busRecord (by decide)
  ⟨w.1, w.2.2 (by decide)⟩

/-! ## Session check -/

/-- C4 (as stated) fails: with session support compiled in and no session id
requested, a process owned by the target user that has no login session is
rejected before its environment block is read, although the block holds a bus
address that opens; the factory then ends in `ENOENT`. -/
theorem no_sid_nodata_not_scanned :
    sidSupplied none = false ∧
    candidate true acceptingBus 1000 none rootCreds daemonEntry =
      (.next, rootCreds, [.openat "812" true, .sd_pid_get_session "812"]) ∧
    Call.read_environ "812" ∉ (candidate true acceptingBus 1000 none rootCreds daemonEntry).2.2 ∧
    (Factory true acceptingBus (.ok [daemonEntry]) 1000 none rootCreds).1 =
      .system_error ENOENT ∧
    (Factory false acceptingBus (.ok [daemonEntry]) 1000 none rootCreds).1 = .returned 7 := by
  decide

/-- C4 (amended). When no session id is requested (null or empty), a candidate
whose `environ` file opens and is owned by the target user has its environment
block read in every case but one: session support is compiled in and the
lookup reports `-ENODATA`. The session name, and a lookup that fails in any
other way, do not matter. -/
theorem no_sid_scan_iff (HAVE_SYSTEMD : Bool) (dbus_open : DBusOpen) (uid : Nat)
    (sid : Option (List Nat)) (c : Creds) (e : Entry) (f : EnvironFile)
    (he : e.environ = some f) (hu : f.uid = uid) (hsid : sidSupplied sid = false) :
    Call.read_environ e.d_name ∈ (candidate HAVE_SYSTEMD dbus_open uid sid c e).2.2 ↔
      ¬ (HAVE_SYSTEMD = true ∧ e.session.rc = -ENODATA) := by
  cases HAVE_SYSTEMD with
  | false =>
    simp only [candidate, he, hu, sessionCheck, ne_eq, not_true_eq_false, if_false]
    cases environScan (c_str f.content) <;> simp
  | true =>
    by_cases hrc : e.session.rc = -ENODATA
    · simp [candidate, he, hu, sessionCheck, hrc]
    · simp only [candidate, he, hu, sessionCheck, hrc, hsid, ne_eq, not_true_eq_false, if_false]
      cases environScan (c_str f.content) <;> simp

/-- C4 (amended) at a process whose session lookup fails with `-ESRCH`: with
no session id requested its block is read. -/
theorem no_sid_scan_iff_witness :
    Call.read_environ "4502" ∈ (candidate true acceptingBus 1000 none rootCreds vanishedEntry).2.2 :=
  (no_sid_scan_iff true acceptingBus 1000 none rootCreds vanishedEntry
    { st_uid := some 1000, content := sampleEnviron } rfl rfl rfl).mpr (by decide)

/-- C3. With session support compiled in and a session id requested, a
candidate owned by the target user whose session lookup fails with an error
other than `-ENODATA` is not skipped: `sname` is still null when it is
compared with the requested id. -/
theorem unresolved_session_not_skipped (b : Nat) (t : List Nat) :
    sessionCheck true (some (b :: t)) { rc := -3, sname := none } = .fault ∧
    candidate true acceptingBus 1000 (some (bytes "3")) rootCreds vanishedEntry =
      (.fault, rootCreds, [.openat "4502" true, .sd_pid_get_session "4502"]) := by
  constructor
  · simp [sessionCheck, sidSupplied, ENODATA]
  · decide

/-- C2. A process-table enumeration in which the matching candidate comes
after a process whose session lookup failed: the factory neither returns the
connection of the matching candidate nor ends in `ENOENT`; on the matching
candidate alone it returns the connection. -/
theorem Factory_faults_before_matching_candidate :
    Factory true acceptingBus (.ok [vanishedEntry, sessionEntry]) 1000 (some (bytes "3"))
        rootCreds =
      (.fault, rootCreds, [.openat "4502" true, .sd_pid_get_session "4502"]) ∧
    (Factory true acceptingBus (.ok [sessionEntry]) 1000 (some (bytes "3")) rootCreds).1 =
      .returned 7 := by
  decide

/-! ## Critical section -/

/-- C1. Entered with real and saved id 1000 and effective id 0, the critical
section switches to user 1001, opens the bus, and calls `seteuid(0)`, which is
refused: the section is left with effective id 1001. -/
theorem attempt_restore_refused :
    attempt acceptingBus 1001 effectiveRootCreds (busRecord ++ [0, 0]) =
      (.connected 7, { ruid := 1000, euid := 1001, suid := 1000 },
        [.geteuid 0, .seteuid 1001 true, .dbus_connection_open (bytes "unix:x") true,
          .seteuid 0 false]) := by
  decide

/-- When the effective id on entry is also the real or the saved id of the
process, the critical section is left with the credentials it was entered
with, whatever the switch and the open do. -/
theorem attempt_restores_euid (dbus_open : DBusOpen) (uid : Nat) (c : Creds) (ptr : List Nat)
    (hid : c.euid = c.ruid ∨ c.euid = c.suid) (hvalid : c.euid ≠ 4294967295)
    (hstr : cstring (ptr.drop 25) ≠ none) :
    (attempt dbus_open uid c ptr).2.1 = c := by
  obtain ⟨address, haddr⟩ := Option.ne_none_iff_exists'.mp hstr
  unfold attempt
  cases hsw : seteuid c uid with
  | none => rfl
  | some c1 =>
    have hc1 : c1 = { c with euid := uid } := by
      unfold seteuid at hsw
      split at hsw
      · cases hsw
      · split at hsw
        · exact (Option.some.inj hsw).symm
        · cases hsw
    have hrest : seteuid c1 (geteuid c) = some c := by
      subst hc1
      obtain ⟨r, e, sv⟩ := c
      simp only [geteuid] at hid hvalid ⊢
      unfold seteuid
      simp only [hvalid, if_false]
      rcases hid with h | h
      · simp [h]
      · simp [h]
    simp only [haddr, hrest, Option.getD_some]
    cases dbus_open address <;> rfl

/-- The restoration at a root daemon and a refusing transport. -/
theorem attempt_restores_euid_witness :
    (attempt refusingBus 1000 rootCreds (busRecord ++ [0, 0])).2.1 = rootCreds :=
  attempt_restores_euid refusingBus 1000 rootCreds (busRecord ++ [0, 0])
    (by decide) (by decide) (by decide)

/-! ## Scan of the process table -/

/-- When every entry of `pre` is passed over without a connection and without
a fault, and the next entry connects, the factory loop returns that
connection and makes no call for the entries after it. -/
theorem factoryLoop_first_success (HAVE_SYSTEMD : Bool) (dbus_open : DBusOpen) (uid : Nat)
    (sid : Option (List Nat)) (pre : List Entry) (e : Entry) (post : List Entry) (c : Creds)
    (h : Nat)
    (hpre : (factoryLoop HAVE_SYSTEMD dbus_open uid sid pre c).1 = .system_error ENOENT)
    (he : (candidate HAVE_SYSTEMD dbus_open uid sid
      (factoryLoop HAVE_SYSTEMD dbus_open uid sid pre c).2.1 e).1 = .connected h) :
    factoryLoop HAVE_SYSTEMD dbus_open uid sid (pre ++ e :: post) c =
      (.returned h,
        (candidate HAVE_SYSTEMD dbus_open uid sid
          (factoryLoop HAVE_SYSTEMD dbus_open uid sid pre c).2.1 e).2.1,
        (factoryLoop HAVE_SYSTEMD dbus_open uid sid pre c).2.2 ++
          (candidate HAVE_SYSTEMD dbus_open uid sid
            (factoryLoop HAVE_SYSTEMD dbus_open uid sid pre c).2.1 e).2.2) := by
  induction pre generalizing c with
  | nil =>
    simp only [factoryLoop, List.nil_append, List.nil_append] at he ⊢
    rw [he]
  | cons a pre ih =>
    simp only [factoryLoop, List.cons_append] at hpre he ⊢
    cases hstep : (candidate HAVE_SYSTEMD dbus_open uid sid c a).1 with
    | connected k => simp [hstep] at hpre
    | fault => simp [hstep] at hpre
    | next =>
      simp only [hstep, List.append_eq] at hpre he ⊢
      rw [ih _ hpre he]
      simp

/-- The first-success rule on a table of three processes: a process of another
user, the matching process, and a process that is never looked at. -/
theorem factoryLoop_first_success_witness :
    factoryLoop true acceptingBus 1000 (some (bytes "3"))
        ([{ d_name := "1", environ := some { st_uid := some 0, content := [] },
            session := { rc := -61, sname := none } }] ++ sessionEntry :: [vanishedEntry])
        rootCreds =
      (.returned 7, rootCreds,
        [.openat "1" true] ++
          [.openat "4711" true, .sd_pid_get_session "4711", .read_environ "4711", .geteuid 0,
            .seteuid 1000 true, .dbus_connection_open (bytes "unix:x") true, .seteuid 0 true]) :=
  factoryLoop_first_success true acceptingBus 1000 (some (bytes "3"))
    [{ d_name := "1", environ := some { st_uid := some 0, content := [] },
       session := { rc := -61, sname := none } }] sessionEntry [vanishedEntry] rootCreds 7
    (by decide) (by decide)

end Udjat
